import Mathlib

/-!
Verification of the selection-and-delivery pipeline of `src/app.py`
(a Telegram YouTube-download bot).

Python strings are modeled as `List Char`; machine integers as `Int`/`Nat`;
fallible parsing as `Option`; the effectful handlers as explicit state
passing over a `BotState` record, with external effects (provider fetch,
download, upload, status edits) supplied by an `Oracles` record and
observable effects recorded in an event trace.
-/

namespace YtMagic

/-! ## Python string primitives -/

/-- Whitespace characters stripped by the Python `str.strip()` method
(ASCII model). -/
def isPySpace (c : Char) : Bool :=
  c = ' ' || c = '\t' || c = '\n' || c = '\x0d' || c = '\x0b' || c = '\x0c'

/-- Python `str.strip()`: remove leading and trailing whitespace. -/
def pyStrip (s : List Char) : List Char :=
  ((s.dropWhile isPySpace).reverse.dropWhile isPySpace).reverse

/-- ASCII decimal digit test. -/
def isDigitChar (c : Char) : Bool :=
  '0' ≤ c && c ≤ '9'

/-- Numeric value of a digit character. -/
def digitVal (c : Char) : Nat :=
  c.toNat - 48

/-- Value of a digit list, most significant first. -/
def digitsVal (ds : List Char) : Nat :=
  ds.foldl (fun a c => 10 * a + digitVal c) 0

/-- Sign-and-digit parsing of an already stripped string. -/
def pyIntCore : List Char → Option Int
  | [] => none
  | c :: cs =>
    if c = '-' then
      if cs ≠ [] ∧ cs.all isDigitChar then some (-(digitsVal cs : Int)) else none
    else if c = '+' then
      if cs ≠ [] ∧ cs.all isDigitChar then some ((digitsVal cs : Int)) else none
    else
      if (c :: cs).all isDigitChar then some ((digitsVal (c :: cs) : Int)) else none

/-- Python `int(s)` on the strings reachable in this program: optional
surrounding whitespace, optional sign, then ASCII decimal digits.
(The Python underscore digit separator cannot occur here because every
parsed field is the result of a split on the underscore character.) -/
def pyInt? (s : List Char) : Option Int :=
  pyIntCore (pyStrip s)

/-- Digit rendering with explicit fuel, making the recursion structural
(so that concrete values reduce inside the kernel). -/
def natCharsFuel : Nat → Nat → List Char
  | 0, _ => []
  | fuel + 1, n =>
    if n < 10 then [Char.ofNat (48 + n)]
    else natCharsFuel fuel (n / 10) ++ [Char.ofNat (48 + n % 10)]

/-- Decimal digits of a natural number, as produced by Python `str(n)`;
`n + 1` units of fuel always suffice. -/
def natChars (n : Nat) : List Char := natCharsFuel (n + 1) n

theorem natCharsFuel_congr :
    ∀ {a : Nat} {b n : Nat}, n < a → n < b →
      natCharsFuel a n = natCharsFuel b n
  | 0, _, n, h1, _ => absurd h1 (Nat.not_lt_zero n)
  | _ + 1, 0, n, _, h2 => absurd h2 (Nat.not_lt_zero n)
  | a + 1, b + 1, n, h1, h2 => by
    simp only [natCharsFuel]
    split
    · rfl
    · rename_i h10
      have hlt : n / 10 < n := Nat.div_lt_self (by omega) (by omega)
      rw [natCharsFuel_congr (b := b) (by omega) (by omega)]

/-- The recursive unfolding of `natChars` without the fuel. -/
theorem natChars_eq (n : Nat) :
    natChars n =
      if n < 10 then [Char.ofNat (48 + n)]
      else natChars (n / 10) ++ [Char.ofNat (48 + n % 10)] := by
  by_cases h10 : n < 10
  · simp [natChars, natCharsFuel, h10]
  · have hlt : n / 10 < n := Nat.div_lt_self (by omega) (by omega)
    rw [if_neg h10]
    show natCharsFuel (n + 1) n = _
    rw [natCharsFuel, if_neg h10,
        natCharsFuel_congr (b := n / 10 + 1) (by omega) (by omega)]
    rfl

/-- Python `str(i)` for an integer. -/
def intChars (i : Int) : List Char :=
  if i < 0 then '-' :: natChars i.natAbs else natChars i.natAbs

/-- Python `str.startswith`. -/
def startsWithL : List Char → List Char → Bool
  | [], _ => true
  | _ :: _, [] => false
  | p :: ps, c :: cs => p = c && startsWithL ps cs

/-- One step of the split: extend the group decomposition of the tail by
the character `c`. -/
def splitCons (c sep : Char) : List (List Char) → List (List Char)
  | [] => [[]]
  | g :: gs => if c = sep then [] :: g :: gs else (c :: g) :: gs

/-- Python `str.split(sep)` for a one-character separator: the list of
groups between occurrences of `sep` (empty groups included). -/
def splitOnChar (sep : Char) : List Char → List (List Char)
  | [] => [[]]
  | c :: cs => splitCons c sep (splitOnChar sep cs)

/-- Python substring containment `p in s`. -/
def containsSub (p : List Char) : List Char → Bool
  | [] => p.isEmpty
  | c :: cs => startsWithL p (c :: cs) || containsSub p cs

/-- Python `str.lower()` (ASCII model). -/
def pyLower (s : List Char) : List Char :=
  s.map Char.toLower

/-! ## Lemmas about the string primitives -/

theorem natChars_ne_nil (n : Nat) : natChars n ≠ [] := by
  rw [natChars_eq]
  split
  · simp
  · simp

theorem digitChar_isDigit {d : Nat} (h : d < 10) :
    isDigitChar (Char.ofNat (48 + d)) = true := by
  interval_cases d <;> decide

theorem digitChar_val {d : Nat} (h : d < 10) :
    digitVal (Char.ofNat (48 + d)) = d := by
  interval_cases d <;> decide

theorem natChars_all_digit (n : Nat) : (natChars n).all isDigitChar = true := by
  induction n using Nat.strong_induction_on with
  | _ n ih =>
    rw [natChars_eq]
    split
    · simp [digitChar_isDigit ‹n < 10›]
    · rename_i h
      have hlt : n / 10 < n := Nat.div_lt_self (by omega) (by omega)
      have h10 : n % 10 < 10 := Nat.mod_lt _ (by omega)
      simp only [List.all_append, Bool.and_eq_true]
      exact ⟨ih _ hlt, by simp [digitChar_isDigit h10]⟩

theorem digit_not_space {c : Char} (h : isDigitChar c = true) : isPySpace c = false := by
  simp only [isDigitChar, Bool.and_eq_true, decide_eq_true_eq] at h
  simp only [isPySpace, Bool.or_eq_false_iff, decide_eq_false_iff_not]
  have h48 : ('0' : Char) ≤ c := h.1
  rw [Char.le_def] at h48
  refine ⟨⟨⟨⟨⟨?_, ?_⟩, ?_⟩, ?_⟩, ?_⟩, ?_⟩ <;>
    (intro hc; subst hc; revert h48; decide)

theorem digit_ne_dash {c : Char} (h : isDigitChar c = true) : ¬ c = '-' := by
  intro hc; subst hc; exact absurd h (by decide)

theorem digit_ne_plus {c : Char} (h : isDigitChar c = true) : ¬ c = '+' := by
  intro hc; subst hc; exact absurd h (by decide)

theorem dropWhile_eq_self_of_head {p : Char → Bool} :
    ∀ {s : List Char}, (∀ c ∈ s, p c = false) → s.dropWhile p = s
  | [], _ => rfl
  | c :: cs, h => by
    simp [List.dropWhile, h c (by simp)]

theorem pyStrip_of_no_space {s : List Char} (h : ∀ c ∈ s, isPySpace c = false) :
    pyStrip s = s := by
  unfold pyStrip
  rw [dropWhile_eq_self_of_head h,
      dropWhile_eq_self_of_head (fun c hc => h c (List.mem_reverse.mp hc)),
      List.reverse_reverse]

theorem pyStrip_of_all_digit {s : List Char} (h : s.all isDigitChar = true) :
    pyStrip s = s :=
  pyStrip_of_no_space fun c hc =>
    digit_not_space (by simpa using List.all_eq_true.mp h c hc)

theorem digitsVal_append_one (ds : List Char) (c : Char) :
    digitsVal (ds ++ [c]) = 10 * digitsVal ds + digitVal c := by
  simp [digitsVal, List.foldl_append]

theorem digitsVal_natChars (n : Nat) : digitsVal (natChars n) = n := by
  induction n using Nat.strong_induction_on with
  | _ n ih =>
    rw [natChars_eq]
    split
    · rename_i h
      simp [digitsVal, digitChar_val h]
    · rename_i h
      have hlt : n / 10 < n := Nat.div_lt_self (by omega) (by omega)
      have h10 : n % 10 < 10 := Nat.mod_lt _ (by omega)
      rw [digitsVal_append_one, ih _ hlt, digitChar_val h10]
      omega

theorem pyInt_natChars (n : Nat) : pyInt? (natChars n) = some (n : Int) := by
  have hd := natChars_all_digit n
  have hs := pyStrip_of_all_digit hd
  unfold pyInt?
  rw [hs]
  cases hnc : natChars n with
  | nil => exact absurd hnc (natChars_ne_nil n)
  | cons c cs =>
    rw [hnc] at hd
    have hcd : isDigitChar c = true := by
      have := List.all_eq_true.mp hd c (by simp)
      simpa using this
    simp only [pyIntCore]
    rw [if_neg (digit_ne_dash hcd), if_neg (digit_ne_plus hcd), if_pos hd]
    have := digitsVal_natChars n
    rw [hnc] at this
    rw [this]

theorem pyInt_intChars (i : Int) : pyInt? (intChars i) = some i := by
  unfold intChars
  split
  · rename_i h
    have hd := natChars_all_digit i.natAbs
    have hne := natChars_ne_nil i.natAbs
    unfold pyInt?
    have hstrip : pyStrip ('-' :: natChars i.natAbs) = '-' :: natChars i.natAbs := by
      refine pyStrip_of_no_space ?_
      intro c hc
      rcases List.mem_cons.mp hc with h1 | h2
      · subst h1; decide
      · exact digit_not_space (by simpa using List.all_eq_true.mp hd c h2)
    rw [hstrip]
    simp only [pyIntCore]
    rw [if_pos trivial, if_pos ⟨hne, hd⟩, digitsVal_natChars]
    congr 1
    omega
  · rename_i h
    rw [pyInt_natChars]
    congr 1
    omega

theorem startsWithL_append (p rest : List Char) : startsWithL p (p ++ rest) = true := by
  induction p with
  | nil => rfl
  | cons c cs ih => simp [startsWithL, ih]

theorem splitOnChar_ne_nil (sep : Char) (s : List Char) : splitOnChar sep s ≠ [] := by
  cases s with
  | nil => simp [splitOnChar]
  | cons c cs =>
    simp only [splitOnChar]
    cases h : splitOnChar sep cs with
    | nil => simp [splitCons]
    | cons g gs =>
      simp only [splitCons]
      split <;> simp

theorem splitOnChar_of_not_mem {sep : Char} :
    ∀ {s : List Char}, sep ∉ s → splitOnChar sep s = [s]
  | [], _ => rfl
  | c :: cs, h => by
    have hc : ¬ c = sep := fun hc => h (hc ▸ List.mem_cons_self c cs)
    have hcs : sep ∉ cs := fun hm => h (List.mem_cons_of_mem _ hm)
    simp only [splitOnChar]
    rw [splitOnChar_of_not_mem hcs]
    simp [splitCons, hc]

theorem splitOnChar_append {sep : Char} :
    ∀ {xs : List Char} (ys : List Char), sep ∉ xs →
      splitOnChar sep (xs ++ sep :: ys) = xs :: splitOnChar sep ys
  | [], ys, _ => by
    simp only [List.nil_append, splitOnChar]
    cases h : splitOnChar sep ys with
    | nil => exact absurd h (splitOnChar_ne_nil sep ys)
    | cons g gs => simp [splitCons]
  | x :: xs, ys, h => by
    have hx : ¬ x = sep := fun hc => h (hc ▸ List.mem_cons_self x xs)
    have hxs : sep ∉ xs := fun hm => h (List.mem_cons_of_mem _ hm)
    have ih := splitOnChar_append ys hxs
    rw [List.cons_append]
    simp only [splitOnChar]
    rw [ih]
    simp [splitCons, hx]

theorem not_underscore_of_digit {c : Char} (h : isDigitChar c = true) : c ≠ '_' := by
  intro hc; subst hc; exact absurd h (by decide)

theorem underscore_not_mem_natChars (n : Nat) : '_' ∉ natChars n := by
  intro hm
  have := List.all_eq_true.mp (natChars_all_digit n) _ hm
  exact not_underscore_of_digit (by simpa using this) rfl

theorem underscore_not_mem_intChars (i : Int) : '_' ∉ intChars i := by
  unfold intChars
  split
  · intro hm
    rcases List.mem_cons.mp hm with h1 | h2
    · exact absurd h1.symm (by decide)
    · exact underscore_not_mem_natChars _ h2
  · exact underscore_not_mem_natChars _

/-! ## Stream resolver: `YouTubeDownloader` (src/app.py lines 34-74) -/

/-- Line 37: `MAX_FILE_SIZE = 50 * 1024 * 1024`. -/
def MAX_FILE_SIZE : Nat := 50 * 1024 * 1024

/-- One provider stream as consumed by `get_progressive_streams`: the
fields read on lines 58-64. `resolution` and `filesize` are nullable. -/
structure YStream where
  itag : Nat
  resolution : Option (List Char)
  fps : Nat
  filesize : Option Nat
deriving DecidableEq, Repr

/-- The size test on line 59: `if file_size and file_size <= MAX_FILE_SIZE`.
Python truthiness makes both a missing (`None`) and a zero size fail. -/
def sizeOk : Option Nat → Bool
  | none => false
  | some n => n != 0 && decide (n ≤ MAX_FILE_SIZE)

/-- The sort key on line 69:
`int(x['resolution'].replace('p', '')) if x['resolution'] else 0`.
A `none` result means the `int()` call raises ValueError. -/
def resKey? : Option (List Char) → Option Int
  | none => some 0
  | some s => if s = [] then some 0 else pyInt? (s.filter (fun c => c != 'p'))

/-- The sort key value (total on the inputs where no ValueError occurs). -/
def resKeyD (r : Option (List Char)) : Int := (resKey? r).getD 0

/-- Descending comparison on the sort key, as produced by `reverse=True`. -/
def streamGE (a b : YStream) : Prop := resKeyD b.resolution ≤ resKeyD a.resolution

instance : DecidableRel streamGE := fun _ _ => Int.decLe _ _

instance : IsTotal YStream streamGE := ⟨fun _ _ => Int.le_total _ _⟩

instance : IsTrans YStream streamGE := ⟨fun _ _ _ hab hbc => le_trans hbc hab⟩

/-- `YouTubeDownloader.get_progressive_streams` (lines 50-74), applied to
the list of progressive mp4 streams returned by the provider-side filter
on line 53. Output entries keep the fields of the dicts built on lines
60-66. Python `list.sort` is stable; `List.insertionSort` is the stable
sort for the same relation. If some sort key raises ValueError during
sorting, the surrounding try/except returns the empty list (lines 72-74). -/
def get_progressive_streams (streams : List YStream) : List YStream :=
  let valid := streams.filter (fun s => sizeOk s.filesize)
  if valid.all (fun s => (resKey? s.resolution).isSome) then
    List.insertionSort streamGE valid
  else []

/-! ### Sorting lemmas -/

theorem filter_orderedInsert (k : Int) (a : YStream) :
    ∀ s : List YStream,
      (List.orderedInsert streamGE a s).filter (fun c => resKeyD c.resolution == k) =
        if resKeyD a.resolution = k
        then a :: s.filter (fun c => resKeyD c.resolution == k)
        else s.filter (fun c => resKeyD c.resolution == k)
  | [] => by
    by_cases h : resKeyD a.resolution = k
    · simp [List.orderedInsert, List.filter, h, beq_iff_eq.mpr h]
    · simp [List.orderedInsert, List.filter, h, beq_eq_false_iff_ne.mpr h]
  | b :: l => by
    have ih := filter_orderedInsert k a l
    simp only [List.orderedInsert]
    split
    · by_cases ha : resKeyD a.resolution = k
      · simp [List.filter, ha, beq_iff_eq.mpr ha]
      · simp [List.filter, ha, beq_eq_false_iff_ne.mpr ha]
    · rename_i hab
      have hlt : resKeyD a.resolution < resKeyD b.resolution := by
        simpa [streamGE] using hab
      by_cases ha : resKeyD a.resolution = k
      · have hb : ¬ resKeyD b.resolution = k := by omega
        simp [List.filter, ha, beq_eq_false_iff_ne.mpr hb, ih]
      · by_cases hb : resKeyD b.resolution = k
        · simp [List.filter, ha, beq_iff_eq.mpr hb, beq_eq_false_iff_ne.mpr ha, ih]
        · simp [List.filter, ha, beq_eq_false_iff_ne.mpr hb,
            beq_eq_false_iff_ne.mpr ha, ih]

theorem filter_insertionSort (k : Int) :
    ∀ l : List YStream,
      (List.insertionSort streamGE l).filter (fun c => resKeyD c.resolution == k) =
        l.filter (fun c => resKeyD c.resolution == k)
  | [] => rfl
  | a :: l => by
    simp only [List.insertionSort]
    rw [filter_orderedInsert]
    by_cases ha : resKeyD a.resolution = k
    · simp [List.filter, ha, beq_iff_eq.mpr ha, filter_insertionSort k l]
    · simp [List.filter, ha, beq_eq_false_iff_ne.mpr ha, filter_insertionSort k l]

/-! ## Selection tokens (src/app.py lines 173 and 201-209) -/

/-- Line 173: `callback_data = f"download_\x7bstream['itag']\x7d_\x7bupdate.message.chat.id\x7d"`. -/
def encodeToken (itag : Nat) (chatId : Int) : List Char :=
  "download_".data ++ natChars itag ++ '_' :: intChars chatId

/-- Result of the token parsing on lines 201-209. `ignored` is the silent
return on a wrong tag or a wrong field count; `malformed` is a ValueError
raised by `int()`, caught by the handler-wide except. -/
inductive DecodeResult where
  | ignored
  | malformed
  | ok (itag chatId : Int)
deriving DecidableEq, Repr

/-- Lines 201-209 of `TelegramBot.handle_callback`: tag check, split on
the underscore, field-count check, and integer parsing of both fields. -/
def decodeToken (data : List Char) : DecodeResult :=
  if startsWithL "download_".data data = false then .ignored
  else if (splitOnChar '_' data).length ≠ 3 then .ignored
  else
    match pyInt? ((splitOnChar '_' data).getD 1 []) with
    | none => .malformed
    | some itag =>
      match pyInt? ((splitOnChar '_' data).getD 2 []) with
      | none => .malformed
      | some chatId => .ok itag chatId

theorem encodeToken_eq (itag : Nat) (chatId : Int) :
    encodeToken itag chatId =
      "download".data ++ '_' :: (natChars itag ++ '_' :: intChars chatId) := by
  have hsplit : "download_".data = "download".data ++ ['_'] := by decide
  simp [encodeToken, hsplit]

theorem splitOnChar_encodeToken (itag : Nat) (chatId : Int) :
    splitOnChar '_' (encodeToken itag chatId) =
      ["download".data, natChars itag, intChars chatId] := by
  have h1 : ('_' : Char) ∉ "download".data := by decide
  rw [encodeToken_eq, splitOnChar_append _ h1,
      splitOnChar_append _ (underscore_not_mem_natChars itag),
      splitOnChar_of_not_mem (underscore_not_mem_intChars chatId)]

theorem decode_encode (itag : Nat) (chatId : Int) :
    decodeToken (encodeToken itag chatId) = .ok (itag : Int) chatId := by
  have hsw : startsWithL "download_".data (encodeToken itag chatId) = true := by
    rw [encodeToken, List.append_assoc, startsWithL_append]
  unfold decodeToken
  rw [hsw, if_neg (by simp), splitOnChar_encodeToken]
  simp only [List.length_cons, List.length_nil, List.getD]
  rw [if_neg (by simp)]
  simp [pyInt_natChars, pyInt_intChars]

/-! ## User-visible messages (string literals of src/app.py) -/

def msgInvalidUrl : List Char :=
  ("❌ Please send a valid YouTube URL.\n\nSupported formats:\n" ++
   "• https://www.youtube.com/watch?v=VIDEO_ID\n• https://youtu.be/VIDEO_ID\n" ++
   "• https://m.youtube.com/watch?v=VIDEO_ID").data

def msgProcessing : List Char := "🔍 Processing YouTube URL...".data

def msgNoInfoMsg : List Char :=
  "❌ Failed to get video information. Please check the URL and try again.".data

def msgNoStreams : List Char :=
  ("❌ No suitable video streams found.\n\nThis could be because:\n" ++
   "• All available qualities exceed 50 MB\n• No progressive MP4 streams available\n" ++
   "• Video is not accessible").data

def msgMessageError : List Char :=
  "❌ An error occurred while processing the video. Please try again.".data

def msgExpired : List Char := "❌ Session expired. Please send the YouTube URL again.".data

def msgDownloading : List Char := "⬬ Downloading video... Please wait.".data

def msgNoInfoCb : List Char := "❌ Failed to get video information.".data

def msgNoLonger : List Char := "❌ Selected quality is no longer available.".data

def msgDownloadFailed : List Char := "❌ Failed to download video.".data

def msgUploading : List Char := "📤 Uploading video...".data

def msgSuccess : List Char := "✅ Video sent successfully!".data

def msgCallbackError : List Char :=
  "❌ An error occurred during download. Please try again.".data

/-! ## Video metadata and message formatting -/

/-- Provider metadata for one video, as used by the handlers: title,
author, duration, and the progressive mp4 stream list. -/
structure Video where
  title : List Char
  author : List Char
  length : Nat
  streams : List YStream
deriving DecidableEq, Repr

/-- Python `f"\x7bn:02d\x7d"`: zero-padded two-digit rendering. -/
def pad2 (n : Nat) : List Char :=
  if n < 10 then '0' :: natChars n else natChars n

/-- `TelegramBot._format_duration` (lines 279-287). -/
def formatDuration (seconds : Nat) : List Char :=
  if seconds < 3600 then natChars (seconds / 60) ++ ':' :: pad2 (seconds % 60)
  else natChars (seconds / 3600) ++ ':' :: pad2 ((seconds % 3600) / 60) ++
    ':' :: pad2 (seconds % 60)

/-- The video-info message built on lines 178-183. -/
def videoInfoMsg (yt : Video) : List Char :=
  "🎥 *".data ++ yt.title ++ "*\n👤 ".data ++ yt.author ++ "\n⏱️ ".data ++
    formatDuration yt.length ++ "\n\n📱 Choose quality to download:".data

/-- The caption of the delivered video (line 253). -/
def captionOf (yt : Video) : List Char :=
  "🎥 ".data ++ yt.title ++ "\n👤 ".data ++ yt.author

/-! ## Session store (`context.user_data`, a Python dict) -/

abbrev Session := List (List Char × List Char)

/-- Dict assignment `d[k] = v` (line 186): overwrite in place, or append. -/
def putS (m : Session) (k v : List Char) : Session :=
  if m.any (fun p => p.1 == k) then
    m.map (fun p => if p.1 == k then (k, v) else p)
  else m ++ [(k, v)]

/-- Dict read `d.get(k)` (line 212). -/
def lookupS (m : Session) (k : List Char) : Option (List Char) :=
  (m.find? (fun p => p.1 == k)).map (fun p => p.2)

/-- Dict removal `d.pop(k, None)` (line 263): no error when absent. -/
def popS (m : Session) (k : List Char) : Session :=
  m.filter (fun p => p.1 != k)

/-- The key `f"video_url_\x7bchat_id\x7d"` used on lines 186, 212 and 263. -/
def sessionKey (chatId : Int) : List Char :=
  "video_url_".data ++ intChars chatId

/-! ## Handler state machine -/

/-- Observable effects of a handler run in order of occurrence. -/
inductive Ev where
  | replied (msg : List Char)
  | edited (msg : List Char) (buttons : List (List Char))
  | providerCall (url : List Char)
  | downloadAttempt
  | videoSent (caption : List Char)
deriving DecidableEq, Repr

/-- Exceptions the model distinguishes: a transport failure while editing
a status message, a transport failure in `send_video`, and a ValueError
from `int()`. -/
inductive PyErr where
  | editError
  | sendError
  | valueError
deriving DecidableEq, Repr

/-- How a handler invocation ends: a normal return, or an exception
propagating out of the handler to the framework. -/
inductive Outcome where
  | returned
  | raised (e : PyErr)
deriving DecidableEq, Repr

/-- Mutable state threaded through a handler: the session dict, the
staging disk, the recorded effect trace, and the edit-call counter used
to index the edit oracle. -/
structure BotState where
  session : Session
  disk : List (List Char)
  trace : List Ev
  edits : Nat
deriving DecidableEq, Repr

/-- External collaborators: provider fetch results, download and upload
success, and whether the n-th `edit_message_text` call succeeds. -/
structure Oracles where
  provider : List Char → Option Video
  downloadOk : Bool
  sendOk : Bool
  editOk : Nat → Bool

def addEv (st : BotState) (e : Ev) : BotState :=
  { st with trace := st.trace ++ [e] }

/-- One `edit_message_text` call: the edit oracle decides whether the
transport raises; a successful edit is recorded in the trace. -/
def tryEdit (o : Oracles) (st : BotState) (msg : List Char)
    (buttons : List (List Char)) : BotState × Bool :=
  if o.editOk st.edits then
    ({ st with
        edits := st.edits + 1
        trace := st.trace ++ [Ev.edited msg buttons] }, true)
  else ({ st with edits := st.edits + 1 }, false)

/-- The single file staged inside the per-request temporary directory. -/
def stagedFile : List Char := "video.mp4".data

/-- Exit of the `with tempfile.TemporaryDirectory()` block opened on line
238: the staged file, if present, is removed from disk. This runs on
every exit from the block, normal or exceptional. -/
def cleanupTemp (st : BotState) : BotState :=
  { st with disk := st.disk.filter (fun p => p != stagedFile) }

/-- A successful `download_stream` call (line 240): the staged file
appears on disk. -/
def stageFile (st : BotState) : BotState :=
  { st with disk := st.disk ++ [stagedFile] }

/-- One status edit whose failure escapes as an `editError` and whose
success continues normally. -/
def editStep (o : Oracles) (st : BotState) (msg : List Char)
    (buttons : List (List Char)) : BotState × Option PyErr :=
  match tryEdit o st msg buttons with
  | (s, true) => (s, none)
  | (s, false) => (s, some .editError)

/-- Lines 238-263: the with-block (download, upload) and, after it, the
success edit and the session pop. The result carries the exception, if
any, escaping to the handler-wide except. -/
def deliver (o : Oracles) (key : List Char) (yt : Video) (st : BotState) :
    BotState × Option PyErr :=
  if o.downloadOk = false then
    (cleanupTemp (editStep o (addEv st .downloadAttempt) msgDownloadFailed []).1,
     (editStep o (addEv st .downloadAttempt) msgDownloadFailed []).2)
  else
    match tryEdit o (stageFile (addEv st .downloadAttempt)) msgUploading [] with
    | (s, false) => (cleanupTemp s, some .editError)
    | (s, true) =>
      if o.sendOk = false then (cleanupTemp s, some .sendError)
      else
        match editStep o (cleanupTemp (addEv s (.videoSent (captionOf yt))))
            msgSuccess [] with
        | (s2, none) => ({ s2 with session := popS s2.session key }, none)
        | (s2, some e) => (s2, some e)

/-- Lines 212-263: session read, re-fetch by the stored URL, itag lookup
into the current stream list, then delivery. -/
def afterDecode (o : Oracles) (itag chatId : Int) (st : BotState) :
    BotState × Option PyErr :=
  match lookupS st.session (sessionKey chatId) with
  | none => editStep o st msgExpired []
  | some url =>
    match tryEdit o st msgDownloading [] with
    | (s, false) => (s, some .editError)
    | (s, true) =>
      match o.provider url with
      | none => editStep o (addEv s (.providerCall url)) msgNoInfoCb []
      | some yt =>
        match yt.streams.find? (fun x => (x.itag : Int) == itag) with
        | none => editStep o (addEv s (.providerCall url)) msgNoLonger []
        | some _ => deliver o (sessionKey chatId) yt (addEv s (.providerCall url))

/-- The try-block of `TelegramBot.handle_callback` (lines 199-263). -/
def handle_callback_try (o : Oracles) (data : List Char) (st : BotState) :
    BotState × Option PyErr :=
  match decodeToken data with
  | .ignored => (st, none)
  | .malformed => (st, some .valueError)
  | .ok itag chatId => afterDecode o itag chatId st

/-- The handler-wide except-branch (lines 265-267 and 190-192): any
exception from the try-block is logged and answered with one more status
edit; that edit itself is unguarded, so its failure propagates out of
the handler. -/
def editFail (o : Oracles) (st : BotState) (errMsg : List Char) :
    BotState × Outcome :=
  match tryEdit o st errMsg [] with
  | (s, true) => (s, .returned)
  | (s, false) => (s, .raised .editError)

def exceptWrap (o : Oracles) (errMsg : List Char)
    (p : BotState × Option PyErr) : BotState × Outcome :=
  match p.2 with
  | none => (p.1, .returned)
  | some _ => editFail o p.1 errMsg

/-- `TelegramBot.handle_callback` (lines 194-267): the try-block plus the
except-branch. -/
def handle_callback (o : Oracles) (data : List Char) (st : BotState) :
    BotState × Outcome :=
  exceptWrap o msgCallbackError (handle_callback_try o data st)

/-! ## URL validation and the message handler (lines 131-192, 269-277) -/

/-- Line 271-276: the four domain strings. -/
def youtube_domains : List (List Char) :=
  ["youtube.com".data, "www.youtube.com".data, "m.youtube.com".data, "youtu.be".data]

/-- `TelegramBot._is_youtube_url` (lines 269-277): a case-insensitive
substring containment test against the four domain strings. -/
def is_youtube_url (url : List Char) : Bool :=
  youtube_domains.any (fun d => containsSub d (pyLower url))

/-- The try-block of `TelegramBot.handle_message` (lines 149-188). -/
def handle_message_try (o : Oracles) (chatId : Int) (text : List Char)
    (st : BotState) : BotState × Option PyErr :=
  match o.provider text with
  | none => editStep o (addEv st (.providerCall text)) msgNoInfoMsg []
  | some yt =>
    if get_progressive_streams yt.streams = [] then
      editStep o (addEv st (.providerCall text)) msgNoStreams []
    else
      editStep o
        { addEv st (.providerCall text) with
          session := putS st.session (sessionKey chatId) text }
        (videoInfoMsg yt)
        ((get_progressive_streams yt.streams).map
          (fun s => encodeToken s.itag chatId))

/-- `TelegramBot.handle_message` (lines 131-192): strip, validate, reply,
then resolve; the except-branch edit is again unguarded. -/
def handle_message (o : Oracles) (chatId : Int) (rawText : List Char)
    (st : BotState) : BotState × Outcome :=
  if is_youtube_url (pyStrip rawText) = false then
    (addEv st (.replied msgInvalidUrl), .returned)
  else
    exceptWrap o msgMessageError
      (handle_message_try o chatId (pyStrip rawText)
        (addEv st (.replied msgProcessing)))

/-! ## Trace observations -/

def isDownloadEv : Ev → Bool
  | .downloadAttempt => true
  | _ => false

def isProviderEv : Ev → Bool
  | .providerCall _ => true
  | _ => false

/-- The download attempts recorded in a trace. -/
def downloads (t : List Ev) : List Ev := t.filter isDownloadEv

/-- The provider fetches recorded in a trace. -/
def providerCalls (t : List Ev) : List Ev := t.filter isProviderEv

/-- The text of the last successful status edit in a trace. -/
def lastEdit : List Ev → Option (List Char)
  | [] => none
  | e :: es =>
    match lastEdit es with
    | some m => some m
    | none =>
      match e with
      | .edited m _ => some m
      | _ => none

/-! ## The host of a URL (the notion the specification appeals to) -/

/-- Characters after the first "://" of a URL (empty if none). -/
def afterSchemeSep : List Char → List Char
  | ':' :: '/' :: '/' :: rest => rest
  | _ :: cs => afterSchemeSep cs
  | [] => []

/-- The authority (host) component of a URL: what follows the first
"://" up to the next '/', ':', '?' or '#'. The source never extracts a
host; this definition exists to state the allow-list claim of the
specification. -/
def hostOf (url : List Char) : List Char :=
  (afterSchemeSep url).takeWhile (fun c => !(c = '/' || c = ':' || c = '?' || c = '#'))

/-! ## Resolver lemmas -/

theorem get_progressive_streams_eq_of_ok (streams : List YStream)
    (hp : ((streams.filter (fun s => sizeOk s.filesize)).all
        (fun s => (resKey? s.resolution).isSome)) = true) :
    get_progressive_streams streams =
      List.insertionSort streamGE (streams.filter (fun s => sizeOk s.filesize)) := by
  simp only [get_progressive_streams]
  rw [if_pos hp]

theorem get_progressive_streams_eq_of_bad (streams : List YStream)
    (hp : ((streams.filter (fun s => sizeOk s.filesize)).all
        (fun s => (resKey? s.resolution).isSome)) = false) :
    get_progressive_streams streams = [] := by
  simp only [get_progressive_streams]
  rw [if_neg (by simp [hp])]

/-! ## Claims about the resolver -/

/-- C1: every candidate returned by `get_progressive_streams` has a
non-null declared size of at most 50 MiB (streams failing the test are
silently dropped); the output is sorted non-ascending by the numeric
resolution key; and candidates with equal keys keep their original
provider order (the subsequence at each key value equals that of the
filtered input). The hypothesis excludes the ValueError path, on which
the function returns the empty list and the claim holds trivially. -/
theorem C1_filtered_sorted (streams : List YStream)
    (hp : ((streams.filter (fun s => sizeOk s.filesize)).all
        (fun s => (resKey? s.resolution).isSome)) = true) :
    (∀ c ∈ get_progressive_streams streams,
        ∃ n, c.filesize = some n ∧ n ≤ MAX_FILE_SIZE) ∧
    List.Sorted streamGE (get_progressive_streams streams) ∧
    (∀ k : Int, (get_progressive_streams streams).filter
        (fun c => resKeyD c.resolution == k) =
      (streams.filter (fun s => sizeOk s.filesize)).filter
        (fun c => resKeyD c.resolution == k)) := by
  rw [get_progressive_streams_eq_of_ok streams hp]
  refine ⟨?_, List.sorted_insertionSort streamGE _, fun k => filter_insertionSort k _⟩
  intro c hc
  have hmem : c ∈ streams.filter (fun s => sizeOk s.filesize) :=
    (List.mem_insertionSort streamGE).mp hc
  have hsz := (List.mem_filter.mp hmem).2
  cases hfs : c.filesize with
  | none => rw [hfs] at hsz; exact absurd hsz (by simp [sizeOk])
  | some n =>
    rw [hfs] at hsz
    simp only [sizeOk, Bool.and_eq_true, decide_eq_true_eq] at hsz
    exact ⟨n, rfl, hsz.2⟩

/-- The specification scenario of three streams at 40, 60 and 70 MiB, of
which exactly the 40 MiB one survives the size filter. -/
def c1demo : List YStream :=
  [⟨22, some "720p".data, 30, some (40 * 1024 * 1024)⟩,
   ⟨18, some "360p".data, 30, some (60 * 1024 * 1024)⟩,
   ⟨37, some "1080p".data, 30, some (70 * 1024 * 1024)⟩]

/-- C1 witness: the scenario list satisfies the hypothesis and the three
conclusions, and its output is exactly the single 720p entry. -/
theorem C1_filtered_sorted_witness :
    ((c1demo.filter (fun s => sizeOk s.filesize)).all
        (fun s => (resKey? s.resolution).isSome)) = true ∧
    ((∀ c ∈ get_progressive_streams c1demo,
        ∃ n, c.filesize = some n ∧ n ≤ MAX_FILE_SIZE) ∧
     List.Sorted streamGE (get_progressive_streams c1demo) ∧
     (∀ k : Int, (get_progressive_streams c1demo).filter
        (fun c => resKeyD c.resolution == k) =
       (c1demo.filter (fun s => sizeOk s.filesize)).filter
        (fun c => resKeyD c.resolution == k))) ∧
    get_progressive_streams c1demo =
      [⟨22, some "720p".data, 30, some (40 * 1024 * 1024)⟩] :=
  ⟨by decide, C1_filtered_sorted _ (by decide), by decide⟩

/-- C10: a declared size of exactly 0 is excluded although 0 is non-null
and below the 50 MiB ceiling: the truthiness test on line 59 conflates a
zero size with a missing one, while any nonzero size within the ceiling
is accepted. -/
theorem C10_zero_size_excluded :
    (∀ (streams : List YStream) (c : YStream),
        c ∈ get_progressive_streams streams →
        c.filesize ≠ some 0 ∧ c.filesize ≠ none) ∧
    sizeOk (some 0) = false ∧ sizeOk none = false ∧
    sizeOk (some 1) = true ∧ 0 ≤ MAX_FILE_SIZE := by
  refine ⟨?_, by decide, by decide, by decide, Nat.zero_le _⟩
  intro streams c hc
  by_cases hp : ((streams.filter (fun s => sizeOk s.filesize)).all
      (fun s => (resKey? s.resolution).isSome)) = true
  · rw [get_progressive_streams_eq_of_ok streams hp] at hc
    have hmem : c ∈ streams.filter (fun s => sizeOk s.filesize) :=
      (List.mem_insertionSort streamGE).mp hc
    have hsz := (List.mem_filter.mp hmem).2
    cases hfs : c.filesize with
    | none => rw [hfs] at hsz; exact absurd hsz (by simp [sizeOk])
    | some n =>
      rw [hfs] at hsz
      simp only [sizeOk, Bool.and_eq_true, bne_iff_ne, ne_eq,
        decide_eq_true_eq] at hsz
      exact ⟨fun h0 => hsz.1 (by injection h0), by simp⟩
  · rw [get_progressive_streams_eq_of_bad streams
      (Bool.eq_false_iff.mpr hp)] at hc
    exact absurd hc (List.not_mem_nil c)

/-- C10 witness: a nonzero in-limit stream is a member of the output and
has a non-null, nonzero size. -/
theorem C10_zero_size_excluded_witness :
    (⟨22, some "720p".data, 30, some 1000⟩ : YStream) ∈
      get_progressive_streams
        ([⟨22, some "720p".data, 30, some 1000⟩] : List YStream) ∧
    ((⟨22, some "720p".data, 30, some 1000⟩ : YStream).filesize ≠ some 0 ∧
     (⟨22, some "720p".data, 30, some 1000⟩ : YStream).filesize ≠ none) :=
  ⟨by decide, C10_zero_size_excluded.1
    ([⟨22, some "720p".data, 30, some 1000⟩] : List YStream) _ (by decide)⟩

/-! ## Claims about the selection token -/

/-- C2 counterexample: the token built for format id 22 in chat 99 is the
underscore-delimited string "download_22_99"; splitting it on the pipe
character yields one field, not the claimed three, and a token in the
claimed pipe shape is silently ignored by the decoder. -/
theorem C2_counterexample :
    encodeToken 22 99 = "download_22_99".data ∧
    (splitOnChar '|' (encodeToken 22 99)).length = 1 ∧
    decodeToken "download|abc123|22".data = .ignored :=
  ⟨by decide, by decide, by decide⟩

/-- C2 amended: the token has the underscore-delimited shape
`download_<format-id>_<chat-id>` (carrying the chat id, not the video
id), and decoding recovers exactly what was encoded, for every format id
and chat id. -/
theorem C2_token_roundtrip (itag : Nat) (chatId : Int) :
    encodeToken itag chatId =
      "download".data ++ '_' :: (natChars itag ++ '_' :: intChars chatId) ∧
    decodeToken (encodeToken itag chatId) = .ok (itag : Int) chatId :=
  ⟨encodeToken_eq itag chatId, decode_encode itag chatId⟩

/-! ## Session store lemmas -/

theorem lookupS_map_overwrite {k v : List Char} :
    ∀ {m : Session}, m.any (fun p => p.1 == k) = true →
      lookupS (m.map (fun p => if p.1 == k then (k, v) else p)) k = some v
  | [], h => by simp at h
  | q :: m, h => by
    by_cases hq : (q.1 == k) = true
    · simp [lookupS, List.find?, hq]
    · have hq' : (q.1 == k) = false := Bool.eq_false_iff.mpr hq
      have hm : m.any (fun p => p.1 == k) = true := by
        simpa [List.any_cons, hq'] using h
      rw [List.map_cons, if_neg (by simp [hq'])]
      unfold lookupS
      rw [List.find?_cons_of_neg _ (by simp [hq'])]
      exact lookupS_map_overwrite hm

theorem lookupS_append_self {k v : List Char} :
    ∀ {m : Session}, m.any (fun p => p.1 == k) = false →
      lookupS (m ++ [(k, v)]) k = some v
  | [], _ => by simp [lookupS, List.find?]
  | q :: m, h => by
    simp only [List.any_cons, Bool.or_eq_false_iff] at h
    obtain ⟨hq, hm⟩ := h
    rw [List.cons_append]
    unfold lookupS
    rw [List.find?_cons_of_neg _ (by simp [hq])]
    exact lookupS_append_self hm

/-- Dict assignment makes the key map to the new value, in place or
appended, without any error. -/
theorem lookupS_putS (m : Session) (k v : List Char) :
    lookupS (putS m k v) k = some v := by
  unfold putS
  by_cases h : m.any (fun p => p.1 == k) = true
  · rw [if_pos h]; exact lookupS_map_overwrite h
  · rw [if_neg h]; exact lookupS_append_self (Bool.eq_false_iff.mpr h)

/-- After `pop`, the key is gone. -/
theorem lookupS_popS (m : Session) (k : List Char) :
    lookupS (popS m k) k = none := by
  induction m with
  | nil => rfl
  | cons q m ih =>
    by_cases hq : (q.1 == k) = true
    · have hne : (q.1 != k) = false := by simp [bne, hq]
      simp only [popS, List.filter_cons, hne, if_false]
      exact ih
    · have hq' : (q.1 == k) = false := Bool.eq_false_iff.mpr hq
      have hne : (q.1 != k) = true := by simp [bne, hq']
      simp only [popS, List.filter_cons, hne, if_true]
      unfold lookupS
      rw [List.find?_cons_of_neg _ (by simp [hq'])]
      exact ih

/-! ## Trace monotonicity lemmas -/

theorem mem_trace_tryEdit {e : Ev} {o : Oracles} {st : BotState}
    {m : List Char} {b : List (List Char)} (h : e ∈ st.trace) :
    e ∈ (tryEdit o st m b).1.trace := by
  by_cases hv : o.editOk st.edits = true <;> simp [tryEdit, hv, h]

theorem mem_trace_editStep {e : Ev} {o : Oracles} {st : BotState}
    {m : List Char} {b : List (List Char)} (h : e ∈ st.trace) :
    e ∈ (editStep o st m b).1.trace := by
  unfold editStep
  rcases het : tryEdit o st m b with ⟨s, ok⟩
  have hm := mem_trace_tryEdit (o := o) (m := m) (b := b) h
  rw [het] at hm
  cases ok <;> exact hm

theorem mem_trace_editFail {e : Ev} {o : Oracles} {st : BotState}
    {errMsg : List Char} (h : e ∈ st.trace) :
    e ∈ (editFail o st errMsg).1.trace := by
  unfold editFail
  rcases het : tryEdit o st errMsg [] with ⟨s, ok⟩
  have hm := mem_trace_tryEdit (o := o) (m := errMsg) (b := []) h
  rw [het] at hm
  cases ok <;> exact hm

theorem mem_trace_exceptWrap {e : Ev} {o : Oracles} {errMsg : List Char}
    {p : BotState × Option PyErr} (h : e ∈ p.1.trace) :
    e ∈ (exceptWrap o errMsg p).1.trace := by
  cases ho : p.2 with
  | none => simpa only [exceptWrap, ho] using h
  | some ex =>
    simp only [exceptWrap, ho]
    exact mem_trace_editFail h

theorem handle_message_try_providerCall (o : Oracles) (chatId : Int)
    (text : List Char) (st : BotState) :
    Ev.providerCall text ∈ (handle_message_try o chatId text st).1.trace := by
  have hmem : Ev.providerCall text ∈ (addEv st (.providerCall text)).trace := by
    simp [addEv]
  cases hp : o.provider text with
  | none =>
    simp only [handle_message_try, hp]
    exact mem_trace_editStep hmem
  | some yt =>
    by_cases hs : get_progressive_streams yt.streams = []
    · simp only [handle_message_try, hp, if_pos hs]
      exact mem_trace_editStep hmem
    · simp only [handle_message_try, hp, if_neg hs]
      exact mem_trace_editStep hmem

/-! ## Component preservation lemmas -/

theorem tryEdit_of_ok {o : Oracles} {st : BotState}
    (h : o.editOk st.edits = true) (m : List Char) (b : List (List Char)) :
    tryEdit o st m b =
      ({ st with
          edits := st.edits + 1
          trace := st.trace ++ [Ev.edited m b] }, true) := by
  unfold tryEdit
  rw [if_pos h]

theorem tryEdit_of_fail {o : Oracles} {st : BotState}
    (h : o.editOk st.edits = false) (m : List Char) (b : List (List Char)) :
    tryEdit o st m b = ({ st with edits := st.edits + 1 }, false) := by
  unfold tryEdit
  rw [if_neg (by simp [h])]

theorem editStep_of_ok {o : Oracles} {st : BotState}
    (h : o.editOk st.edits = true) (m : List Char) (b : List (List Char)) :
    editStep o st m b =
      ({ st with
          edits := st.edits + 1
          trace := st.trace ++ [Ev.edited m b] }, none) := by
  unfold editStep
  rw [tryEdit_of_ok h]

theorem editStep_of_fail {o : Oracles} {st : BotState}
    (h : o.editOk st.edits = false) (m : List Char) (b : List (List Char)) :
    editStep o st m b = ({ st with edits := st.edits + 1 }, some .editError) := by
  unfold editStep
  rw [tryEdit_of_fail h]

theorem tryEdit_session (o : Oracles) (st : BotState) (m : List Char)
    (b : List (List Char)) : (tryEdit o st m b).1.session = st.session := by
  by_cases hv : o.editOk st.edits = true <;> simp [tryEdit, hv]

theorem tryEdit_disk (o : Oracles) (st : BotState) (m : List Char)
    (b : List (List Char)) : (tryEdit o st m b).1.disk = st.disk := by
  by_cases hv : o.editOk st.edits = true <;> simp [tryEdit, hv]

theorem tryEdit_downloads (o : Oracles) (st : BotState) (m : List Char)
    (b : List (List Char)) :
    downloads (tryEdit o st m b).1.trace = downloads st.trace := by
  by_cases hv : o.editOk st.edits = true <;>
    simp [tryEdit, hv, downloads, List.filter_append, isDownloadEv]

theorem editStep_fst (o : Oracles) (st : BotState) (m : List Char)
    (b : List (List Char)) : (editStep o st m b).1 = (tryEdit o st m b).1 := by
  unfold editStep
  rcases het : tryEdit o st m b with ⟨s, ok⟩
  cases ok <;> rfl

theorem editFail_fst (o : Oracles) (st : BotState) (m : List Char) :
    (editFail o st m).1 = (tryEdit o st m []).1 := by
  unfold editFail
  rcases het : tryEdit o st m [] with ⟨s, ok⟩
  cases ok <;> rfl

theorem editStep_session (o : Oracles) (st : BotState) (m : List Char)
    (b : List (List Char)) : (editStep o st m b).1.session = st.session := by
  rw [editStep_fst, tryEdit_session]

theorem cleanupTemp_session (st : BotState) :
    (cleanupTemp st).session = st.session := rfl

theorem exceptWrap_session (o : Oracles) (m : List Char)
    (p : BotState × Option PyErr) :
    (exceptWrap o m p).1.session = p.1.session := by
  cases ho : p.2 with
  | none => simp [exceptWrap, ho]
  | some e =>
    simp only [exceptWrap, ho]
    rw [editFail_fst, tryEdit_session]

theorem exceptWrap_disk (o : Oracles) (m : List Char)
    (p : BotState × Option PyErr) :
    (exceptWrap o m p).1.disk = p.1.disk := by
  cases ho : p.2 with
  | none => simp [exceptWrap, ho]
  | some e =>
    simp only [exceptWrap, ho]
    rw [editFail_fst, tryEdit_disk]

theorem exceptWrap_downloads (o : Oracles) (m : List Char)
    (p : BotState × Option PyErr) :
    downloads (exceptWrap o m p).1.trace = downloads p.1.trace := by
  cases ho : p.2 with
  | none => simp [exceptWrap, ho]
  | some e =>
    simp only [exceptWrap, ho]
    unfold editFail
    rcases het : tryEdit o p.1 m [] with ⟨s, ok⟩
    have h1 := tryEdit_downloads o p.1 m []
    rw [het] at h1
    cases ok <;> exact h1

/-! ## Disk safety: the staged file never survives -/

theorem stagedFile_not_mem_cleanupTemp (st : BotState) :
    stagedFile ∉ (cleanupTemp st).disk := by
  simp [cleanupTemp, List.mem_filter]

theorem deliver_disk (o : Oracles) (key : List Char) (yt : Video)
    (st : BotState) : stagedFile ∉ (deliver o key yt st).1.disk := by
  unfold deliver
  split
  · exact stagedFile_not_mem_cleanupTemp _
  · split
    · exact stagedFile_not_mem_cleanupTemp _
    · rename_i s het
      split
      · exact stagedFile_not_mem_cleanupTemp _
      · split
        · rename_i s2 hes
          have h1 := editStep_fst o
            (cleanupTemp (addEv s (.videoSent (captionOf yt)))) msgSuccess []
          rw [hes] at h1
          show stagedFile ∉ s2.disk
          rw [show s2 = (tryEdit o (cleanupTemp (addEv s (.videoSent (captionOf yt))))
            msgSuccess []).1 from h1, tryEdit_disk]
          exact stagedFile_not_mem_cleanupTemp _
        · rename_i s2 e hes
          have h1 := editStep_fst o
            (cleanupTemp (addEv s (.videoSent (captionOf yt)))) msgSuccess []
          rw [hes] at h1
          show stagedFile ∉ s2.disk
          rw [show s2 = (tryEdit o (cleanupTemp (addEv s (.videoSent (captionOf yt))))
            msgSuccess []).1 from h1, tryEdit_disk]
          exact stagedFile_not_mem_cleanupTemp _

theorem afterDecode_disk (o : Oracles) (itag chatId : Int) (st : BotState)
    (h : stagedFile ∉ st.disk) :
    stagedFile ∉ (afterDecode o itag chatId st).1.disk := by
  unfold afterDecode
  split
  · rw [editStep_fst, tryEdit_disk]
    exact h
  · rename_i url hl
    split
    · rename_i s het
      have h1 := tryEdit_disk o st msgDownloading []
      rw [het] at h1
      show stagedFile ∉ s.disk
      rw [show s.disk = st.disk from h1]
      exact h
    · rename_i s het
      have h1 := tryEdit_disk o st msgDownloading []
      rw [het] at h1
      split
      · rw [editStep_fst, tryEdit_disk]
        show stagedFile ∉ s.disk
        rw [show s.disk = st.disk from h1]
        exact h
      · split
        · rw [editStep_fst, tryEdit_disk]
          show stagedFile ∉ s.disk
          rw [show s.disk = st.disk from h1]
          exact h
        · exact deliver_disk _ _ _ _

theorem handle_callback_try_disk (o : Oracles) (data : List Char)
    (st : BotState) (h : stagedFile ∉ st.disk) :
    stagedFile ∉ (handle_callback_try o data st).1.disk := by
  unfold handle_callback_try
  cases hd : decodeToken data with
  | ignored => exact h
  | malformed => exact h
  | ok itag chatId => exact afterDecode_disk o itag chatId st h

theorem handle_callback_disk (o : Oracles) (data : List Char) (st : BotState)
    (h : stagedFile ∉ st.disk) :
    stagedFile ∉ (handle_callback o data st).1.disk := by
  unfold handle_callback
  rw [exceptWrap_disk]
  exact handle_callback_try_disk o data st h

/-! ## Session preservation when the download fails -/

theorem deliver_session_noDl (o : Oracles) (key : List Char) (yt : Video)
    (st : BotState) (hdl : o.downloadOk = false) :
    (deliver o key yt st).1.session = st.session := by
  unfold deliver
  rw [if_pos hdl]
  show (cleanupTemp (editStep o (addEv st .downloadAttempt)
    msgDownloadFailed []).1).session = st.session
  rw [cleanupTemp_session, editStep_session]
  rfl

theorem afterDecode_session_noDl (o : Oracles) (itag chatId : Int)
    (st : BotState) (hdl : o.downloadOk = false) :
    (afterDecode o itag chatId st).1.session = st.session := by
  unfold afterDecode
  split
  · rw [editStep_session]
  · rename_i url hl
    split
    · rename_i s het
      have h1 := tryEdit_session o st msgDownloading []
      rw [het] at h1
      exact h1
    · rename_i s het
      have h1 := tryEdit_session o st msgDownloading []
      rw [het] at h1
      split
      · rw [editStep_session]
        show s.session = st.session
        exact h1
      · split
        · rw [editStep_session]
          show s.session = st.session
          exact h1
        · rw [deliver_session_noDl _ _ _ _ hdl]
          show s.session = st.session
          exact h1

theorem handle_callback_session_noDl (o : Oracles) (data : List Char)
    (st : BotState) (hdl : o.downloadOk = false) :
    (handle_callback o data st).1.session = st.session := by
  unfold handle_callback
  rw [exceptWrap_session]
  unfold handle_callback_try
  cases hd : decodeToken data with
  | ignored => rfl
  | malformed => rfl
  | ok itag chatId => exact afterDecode_session_noDl o itag chatId st hdl

/-! ## Claims about the session store -/

def c9url1 : List Char := "https://youtu.be/aaa".data

def c9url2 : List Char := "https://youtu.be/bbb".data

def c9vidA : Video :=
  { title := "A".data
    author := "X".data
    length := 65
    streams := [⟨18, some "360p".data, 30, some 1000⟩] }

def c9vidB : Video :=
  { title := "B".data
    author := "Y".data
    length := 70
    streams := [⟨18, some "360p".data, 30, some 2000⟩] }

def c9o : Oracles :=
  { provider := fun u =>
      if u = c9url1 then some c9vidA
      else if u = c9url2 then some c9vidB else none
    downloadOk := true
    sendOk := true
    editOk := fun _ => true }

/-- State after the first URL is resolved in chat 7. -/
def c9st1 : BotState :=
  (handle_message c9o 7 c9url1 { session := [], disk := [], trace := [], edits := 0 }).1

/-- State after the second URL arrives in the same chat before any click. -/
def c9st2 : BotState :=
  (handle_message c9o 7 c9url2 c9st1).1

/-- State after clicking the first URL's button (trace restarted for the
callback so that its provider calls can be observed in isolation). -/
def c9cb : BotState :=
  (handle_callback c9o (encodeToken 18 7)
    { session := c9st2.session, disk := [], trace := [], edits := 0 }).1

/-- C9: dict assignment overwrites the prior entry under the same key
without error (last-write-wins), and consequently, after a second URL in
the same chat, the first URL's button resolves against the second URL's
video: the callback fetches the second URL and delivers the second
video's caption. -/
theorem C9_put_overwrites :
    (∀ (m : Session) (k v1 v2 : List Char),
        lookupS (putS (putS m k v1) k v2) k = some v2) ∧
    Ev.edited (videoInfoMsg c9vidA) [encodeToken 18 7] ∈ c9st1.trace ∧
    lookupS c9st2.session (sessionKey 7) = some c9url2 ∧
    Ev.providerCall c9url2 ∈ c9cb.trace ∧
    Ev.providerCall c9url1 ∉ c9cb.trace ∧
    Ev.videoSent (captionOf c9vidB) ∈ c9cb.trace :=
  ⟨fun m k v1 v2 => lookupS_putS (putS m k v1) k v2,
   by decide, by decide, by decide, by decide, by decide⟩

/-! ## Claims about URL validation -/

def c7url : List Char := "https://evil.example/?q=youtube.com".data

def c7o : Oracles :=
  { provider := fun _ => none
    downloadOk := false
    sendOk := false
    editOk := fun _ => true }

/-- C7 counterexample: a URL whose host is `evil.example` — not on the
domain list — passes the validation because it merely contains
"youtube.com" as a substring, and the provider is then contacted with it. -/
theorem C7_counterexample :
    is_youtube_url c7url = true ∧
    hostOf c7url = "evil.example".data ∧
    hostOf c7url ∉ youtube_domains ∧
    Ev.providerCall c7url ∈
      (handle_message c7o 5 c7url
        { session := [], disk := [], trace := [], edits := 0 }).1.trace :=
  ⟨by decide, by decide, by decide, by decide⟩

/-- C7 amended: the gate is a case-insensitive substring test, not a host
check: a message failing the test is answered locally with the
invalid-URL reply and causes no provider call, a message passing it
always leads to a provider call, and passing is equivalent to one of the
four domain strings occurring as a substring of the lowercased text. -/
theorem C7_substring_gate (o : Oracles) (chatId : Int) (rawText : List Char)
    (st : BotState) :
    (is_youtube_url (pyStrip rawText) = false →
      handle_message o chatId rawText st =
        (addEv st (.replied msgInvalidUrl), .returned)) ∧
    (is_youtube_url (pyStrip rawText) = true →
      Ev.providerCall (pyStrip rawText) ∈
        (handle_message o chatId rawText st).1.trace) ∧
    (is_youtube_url rawText = true ↔
      ∃ d ∈ youtube_domains, containsSub d (pyLower rawText) = true) := by
  refine ⟨?_, ?_, ?_⟩
  · intro h
    simp only [handle_message]
    rw [if_pos h]
  · intro h
    simp only [handle_message]
    rw [if_neg (by simp [h])]
    exact mem_trace_exceptWrap (handle_message_try_providerCall o chatId
      (pyStrip rawText) (addEv st (.replied msgProcessing)))
  · simp [is_youtube_url, List.any_eq_true]

/-- C7 witness: the youtu.be short link passes the gate and reaches the
provider; a plain greeting is rejected locally. -/
theorem C7_substring_gate_witness :
    (is_youtube_url (pyStrip "hello".data) = false ∧
      handle_message c7o 5 "hello".data
          { session := [], disk := [], trace := [], edits := 0 } =
        (addEv { session := [], disk := [], trace := [], edits := 0 }
          (.replied msgInvalidUrl), .returned)) ∧
    (is_youtube_url (pyStrip c9url1) = true ∧
      Ev.providerCall (pyStrip c9url1) ∈
        (handle_message c7o 5 c9url1
          { session := [], disk := [], trace := [], edits := 0 }).1.trace) :=
  ⟨⟨by decide, (C7_substring_gate c7o 5 "hello".data
      { session := [], disk := [], trace := [], edits := 0 }).1 (by decide)⟩,
   ⟨by decide, (C7_substring_gate c7o 5 c9url1
      { session := [], disk := [], trace := [], edits := 0 }).2.1 (by decide)⟩⟩

/-! ## Claims about token decoding failing closed (C6) -/

theorem decodeToken_not_ok {data : List Char}
    (h : (splitOnChar '_' data).length ≠ 3 ∨
         pyInt? ((splitOnChar '_' data).getD 1 []) = none ∨
         pyInt? ((splitOnChar '_' data).getD 2 []) = none) :
    decodeToken data = .ignored ∨ decodeToken data = .malformed := by
  unfold decodeToken
  split
  · exact Or.inl rfl
  · split
    · exact Or.inl rfl
    · rename_i hsw hlen
      rcases h with h | h | h
      · exact absurd h hlen
      · rw [h]
        exact Or.inr rfl
      · cases h1 : pyInt? ((splitOnChar '_' data).getD 1 []) with
        | none => exact Or.inr rfl
        | some i =>
          rw [h]
          exact Or.inr rfl

/-- C6: a callback token whose underscore-separated field count is not
exactly 3, or whose numeric fields do not parse as integers, fails
closed: the handler leaves the session store untouched and performs no
download attempt. -/
theorem C6_malformed_fails_closed (o : Oracles) (data : List Char)
    (st : BotState)
    (h : (splitOnChar '_' data).length ≠ 3 ∨
         pyInt? ((splitOnChar '_' data).getD 1 []) = none ∨
         pyInt? ((splitOnChar '_' data).getD 2 []) = none) :
    (handle_callback o data st).1.session = st.session ∧
    downloads (handle_callback o data st).1.trace = downloads st.trace := by
  have hd := decodeToken_not_ok h
  unfold handle_callback
  constructor
  · rw [exceptWrap_session]
    unfold handle_callback_try
    rcases hd with hd | hd <;> rw [hd]
  · rw [exceptWrap_downloads]
    unfold handle_callback_try
    rcases hd with hd | hd <;> rw [hd]

def c6o : Oracles :=
  { provider := fun _ => none
    downloadOk := true
    sendOk := true
    editOk := fun _ => true }

def c6st : BotState :=
  { session := [(sessionKey 5, "https://youtu.be/fff".data)], disk := []
    trace := [], edits := 0 }

/-- C6 witness: a token with a non-integer middle field is rejected with
no session change and no download. -/
theorem C6_malformed_fails_closed_witness :
    ((splitOnChar '_' "download_x_5".data).length ≠ 3 ∨
     pyInt? ((splitOnChar '_' "download_x_5".data).getD 1 []) = none ∨
     pyInt? ((splitOnChar '_' "download_x_5".data).getD 2 []) = none) ∧
    ((handle_callback c6o "download_x_5".data c6st).1.session = c6st.session ∧
     downloads (handle_callback c6o "download_x_5".data c6st).1.trace =
       downloads c6st.trace) :=
  ⟨by decide, C6_malformed_fails_closed c6o "download_x_5".data c6st (by decide)⟩

/-! ## Claims about the except-branch edit (C5) -/

def c5url : List Char := "https://youtu.be/ccc".data

def c5vid : Video :=
  { title := "C".data
    author := "Z".data
    length := 10
    streams := [⟨22, some "720p".data, 30, some 1000⟩] }

def c5o : Oracles :=
  { provider := fun u => if u = c5url then some c5vid else none
    downloadOk := true
    sendOk := false
    editOk := fun n => decide (n < 2) }

def c5st : BotState :=
  { session := [(sessionKey 9, c5url)], disk := [], trace := [], edits := 0 }

def c5run : BotState × Outcome := handle_callback c5o (encodeToken 22 9) c5st

/-- C5 counterexample: the upload throws, and the status edit that should
report the error fails too (deleted chat); the handler then terminates
with the raised edit error instead of swallowing it — the secondary
failure is not swallowed, it replaces the original error as the
exception leaving the handler, and no error report reaches the user. -/
theorem C5_counterexample :
    c5run.2 = .raised .editError ∧
    Ev.edited msgCallbackError [] ∉ c5run.1.trace ∧
    lastEdit c5run.1.trace = some msgUploading :=
  ⟨by decide, by decide, by decide⟩

/-- C5 amended: a failure of the error-reporting edit is not swallowed:
whenever the try-block raises and the except-branch edit fails, the
handler re-raises the edit failure (replacing the original error)
instead of returning normally. -/
theorem C5_secondary_edit_raises (o : Oracles) (data : List Char)
    (st st1 : BotState) (e : PyErr)
    (h : handle_callback_try o data st = (st1, some e))
    (h2 : o.editOk st1.edits = false) :
    handle_callback o data st =
      ({ st1 with edits := st1.edits + 1 }, .raised .editError) := by
  unfold handle_callback
  rw [h]
  show editFail o st1 msgCallbackError = _
  unfold editFail
  rw [tryEdit_of_fail h2]

def c5mid : BotState :=
  { session := [(sessionKey 9, c5url)]
    disk := []
    trace := [Ev.edited msgDownloading [], Ev.providerCall c5url,
      Ev.downloadAttempt, Ev.edited msgUploading []]
    edits := 2 }

/-- C5 witness: the concrete upload-throws run reaches the except branch
in state `c5mid`, where the next edit fails, and the handler raises. -/
theorem C5_secondary_edit_raises_witness :
    handle_callback_try c5o (encodeToken 22 9) c5st = (c5mid, some .sendError) ∧
    c5o.editOk c5mid.edits = false ∧
    handle_callback c5o (encodeToken 22 9) c5st =
      ({ c5mid with edits := c5mid.edits + 1 }, .raised .editError) :=
  ⟨by decide, by decide,
   C5_secondary_edit_raises c5o (encodeToken 22 9) c5st c5mid .sendError
     (by decide) (by decide)⟩

/-! ## Claims about staged-file cleanup (C4) -/

def c4url : List Char := "https://youtu.be/ddd".data

def c4vid : Video :=
  { title := "D".data
    author := "W".data
    length := 5
    streams := [⟨22, some "720p".data, 30, some 1000⟩] }

def c4o : Oracles :=
  { provider := fun u => if u = c4url then some c4vid else none
    downloadOk := true
    sendOk := false
    editOk := fun _ => true }

def c4st : BotState :=
  { session := [(sessionKey 8, c4url)], disk := [], trace := [], edits := 0 }

def c4run : BotState × Outcome := handle_callback c4o (encodeToken 22 8) c4st

/-- C4: on every exit path of the callback handler the staged file is
absent from disk afterwards (the with-block removes it on success,
download failure and upload failure alike); and in the concrete
download-succeeds/upload-throws run the final user message is the
delivery-failure text of the except branch, the handler returns
normally, and the disk is empty. -/
theorem C4_staged_file_removed (o : Oracles) (data : List Char)
    (st : BotState) (h : stagedFile ∉ st.disk) :
    stagedFile ∉ (handle_callback o data st).1.disk ∧
    (Ev.downloadAttempt ∈ c4run.1.trace ∧
     lastEdit c4run.1.trace = some msgCallbackError ∧
     c4run.1.disk = [] ∧ c4run.2 = .returned) :=
  ⟨handle_callback_disk o data st h, by decide, by decide, by decide, by decide⟩

/-- C4 witness: the hypothesis and conclusion at the concrete
upload-throws run. -/
theorem C4_staged_file_removed_witness :
    stagedFile ∉ c4st.disk ∧
    (stagedFile ∉ (handle_callback c4o (encodeToken 22 8) c4st).1.disk ∧
     (Ev.downloadAttempt ∈ c4run.1.trace ∧
      lastEdit c4run.1.trace = some msgCallbackError ∧
      c4run.1.disk = [] ∧ c4run.2 = .returned)) :=
  ⟨by decide, C4_staged_file_removed c4o (encodeToken 22 8) c4st (by decide)⟩

/-! ## Claims about session consumption (C3) -/

def c3url : List Char := "https://youtu.be/eee".data

def c3vid : Video :=
  { title := "E".data
    author := "V".data
    length := 5
    streams := [⟨22, some "720p".data, 30, some 1000⟩] }

def c3o : Oracles :=
  { provider := fun u => if u = c3url then some c3vid else none
    downloadOk := false
    sendOk := true
    editOk := fun _ => true }

def c3st : BotState :=
  { session := [(sessionKey 4, c3url)], disk := [], trace := [], edits := 0 }

def c3run1 : BotState × Outcome := handle_callback c3o (encodeToken 22 4) c3st

def c3run2 : BotState × Outcome := handle_callback c3o (encodeToken 22 4) c3run1.1

/-- C3 counterexample: after a download attempt completes by failing, the
session entry is still present, and a second click on the same button
starts a second download attempt instead of failing with the
session-expired message — the entry is not consumed exactly once. -/
theorem C3_counterexample :
    Ev.downloadAttempt ∈ c3run1.1.trace ∧
    c3run1.2 = .returned ∧
    lookupS c3run1.1.session (sessionKey 4) = some c3url ∧
    Ev.edited msgExpired [] ∉ c3run2.1.trace ∧
    (downloads c3run2.1.trace).length = 2 :=
  ⟨by decide, by decide, by decide, by decide, by decide⟩

/-- The complete success path of the callback handler: downloading edit,
provider fetch by the stored URL, download, uploading edit, video sent,
cleanup, success edit, and finally the pop of the session entry. -/
theorem handle_callback_success_state (o : Oracles) (st : BotState)
    (itag : Nat) (chatId : Int) (url : List Char) (yt : Video) (s0 : YStream)
    (hE : ∀ n, o.editOk n = true)
    (hlook : lookupS st.session (sessionKey chatId) = some url)
    (hprov : o.provider url = some yt)
    (hfind : yt.streams.find? (fun x => (x.itag : Int) == (itag : Int)) = some s0)
    (hdl : o.downloadOk = true) (hsend : o.sendOk = true) :
    handle_callback o (encodeToken itag chatId) st =
      ({ st with
          session := popS st.session (sessionKey chatId)
          disk := (st.disk ++ [stagedFile]).filter (fun p => p != stagedFile)
          trace := st.trace ++ [Ev.edited msgDownloading [], Ev.providerCall url,
            Ev.downloadAttempt, Ev.edited msgUploading [],
            Ev.videoSent (captionOf yt), Ev.edited msgSuccess []]
          edits := st.edits + 3 }, .returned) := by
  unfold handle_callback handle_callback_try
  rw [decode_encode]
  simp only [afterDecode, deliver, editStep, editFail, tryEdit, exceptWrap,
    hE, hlook, hprov, hfind, hdl, hsend, addEv, stageFile, cleanupTemp]
  simp [List.append_assoc]

/-- C3 amended: the session entry is read with a non-destructive get and
deleted only at the very end of a fully successful delivery; a take on a
key never written yields the session-expired edit and changes nothing,
a successful delivery removes the entry, and after a failed download
attempt the entry is retained unchanged. -/
theorem C3_session_lifecycle :
    (∀ (o : Oracles) (st : BotState) (itag : Nat) (chatId : Int),
      lookupS st.session (sessionKey chatId) = none →
      o.editOk st.edits = true →
      handle_callback o (encodeToken itag chatId) st =
        ({ st with
            edits := st.edits + 1
            trace := st.trace ++ [Ev.edited msgExpired []] }, .returned)) ∧
    (∀ (o : Oracles) (st : BotState) (itag : Nat) (chatId : Int)
        (url : List Char) (yt : Video) (s0 : YStream),
      (∀ n, o.editOk n = true) →
      lookupS st.session (sessionKey chatId) = some url →
      o.provider url = some yt →
      yt.streams.find? (fun x => (x.itag : Int) == (itag : Int)) = some s0 →
      o.downloadOk = true → o.sendOk = true →
      lookupS (handle_callback o (encodeToken itag chatId) st).1.session
        (sessionKey chatId) = none) ∧
    (∀ (o : Oracles) (data : List Char) (st : BotState),
      o.downloadOk = false →
      (handle_callback o data st).1.session = st.session) := by
  refine ⟨?_, ?_, ?_⟩
  · intro o st itag chatId hlook hE
    unfold handle_callback handle_callback_try
    rw [decode_encode]
    simp only [afterDecode, editStep, tryEdit, exceptWrap, hE, hlook]
    simp
  · intro o st itag chatId url yt s0 hE hlook hprov hfind hdl hsend
    rw [handle_callback_success_state o st itag chatId url yt s0 hE hlook
      hprov hfind hdl hsend]
    exact lookupS_popS st.session (sessionKey chatId)
  · intro o data st hdl
    exact handle_callback_session_noDl o data st hdl

def c3empty : BotState := { session := [], disk := [], trace := [], edits := 0 }

/-- C3 witness: a click with no stored session yields exactly the
session-expired edit and leaves the state otherwise unchanged. -/
theorem C3_session_lifecycle_witness :
    lookupS c3empty.session (sessionKey 4) = none ∧
    c3o.editOk c3empty.edits = true ∧
    handle_callback c3o (encodeToken 22 4) c3empty =
      ({ c3empty with
          edits := c3empty.edits + 1
          trace := c3empty.trace ++ [Ev.edited msgExpired []] }, .returned) :=
  ⟨by decide, by decide,
   C3_session_lifecycle.1 c3o c3empty 22 4 (by decide) (by decide)⟩

/-! ## Claims about the re-fetch on selection (C8) -/

def c8url : List Char := "https://youtu.be/abc123".data

def c8vid : Video :=
  { title := "F".data
    author := "U".data
    length := 5
    streams := [⟨18, some "360p".data, 30, some 1000⟩] }

def c8o : Oracles :=
  { provider := fun u => if u = c8url then some c8vid else none
    downloadOk := true
    sendOk := true
    editOk := fun _ => true }

def c8st : BotState :=
  { session := [(sessionKey 3, c8url)], disk := [], trace := [], edits := 0 }

def c8run : BotState × Outcome := handle_callback c8o (encodeToken 22 3) c8st

/-- C8 counterexample: when itag 22 is no longer listed, the handler
re-fetches using the full stored URL, not the bare video id: the
provider is called with "https://youtu.be/abc123" and never with
"abc123". The rest of the claim holds: the specific
quality-no-longer-available message, no staged file, no download, and a
normal return. -/
theorem C8_counterexample :
    Ev.providerCall c8url ∈ c8run.1.trace ∧
    Ev.providerCall "abc123".data ∉ c8run.1.trace ∧
    Ev.edited msgNoLonger [] ∈ c8run.1.trace ∧
    c8run.1.disk = [] ∧
    downloads c8run.1.trace = [] ∧
    c8run.2 = .returned :=
  ⟨by decide, by decide, by decide, by decide, by decide, by decide⟩

/-- C8 amended: the handler re-fetches by the stored original URL text;
when the provider's current list no longer contains the selected itag,
it fails as a normal condition with the quality-no-longer-available
message, creating no staged file, attempting no download, and leaving
session and disk untouched. -/
theorem C8_refetch_by_stored_url (o : Oracles) (st : BotState) (itag : Nat)
    (chatId : Int) (url : List Char) (yt : Video)
    (hE : ∀ n, o.editOk n = true)
    (hlook : lookupS st.session (sessionKey chatId) = some url)
    (hprov : o.provider url = some yt)
    (hfind : yt.streams.find? (fun x => (x.itag : Int) == (itag : Int)) = none) :
    handle_callback o (encodeToken itag chatId) st =
      ({ st with
          edits := st.edits + 2
          trace := st.trace ++ [Ev.edited msgDownloading [], Ev.providerCall url,
            Ev.edited msgNoLonger []] }, .returned) := by
  unfold handle_callback handle_callback_try
  rw [decode_encode]
  simp only [afterDecode, editStep, editFail, tryEdit, exceptWrap,
    hE, hlook, hprov, hfind, addEv]
  simp [List.append_assoc]

/-- C8 witness: the hypotheses and conclusion at the concrete stale-itag
run. -/
theorem C8_refetch_by_stored_url_witness :
    (∀ n, c8o.editOk n = true) ∧
    lookupS c8st.session (sessionKey 3) = some c8url ∧
    c8o.provider c8url = some c8vid ∧
    c8vid.streams.find? (fun x => (x.itag : Int) == ((22 : Nat) : Int)) = none ∧
    handle_callback c8o (encodeToken 22 3) c8st =
      ({ c8st with
          edits := c8st.edits + 2
          trace := c8st.trace ++ [Ev.edited msgDownloading [],
            Ev.providerCall c8url, Ev.edited msgNoLonger []] }, .returned) :=
  ⟨fun _ => rfl, by decide, by decide, by decide,
   C8_refetch_by_stored_url c8o c8st 22 3 c8url c8vid (fun _ => rfl)
     (by decide) (by decide) (by decide)⟩

end YtMagic
